import Mathlib

/-!
Shallow embedding of the EpicScoreBot scoring engine, repository layer,
action-token codec, input validation and session bookkeeping, together with
theorems checking the specification's claims against the code.

Go `float64` arithmetic on scores, weights and coefficients is modelled by
`ℚ`; machine integers by `Int`/`Nat` (none of the modelled code paths can
overflow in a way the claims depend on).  UUID values are modelled by `Nat`
keys except in the token codec, where the 36-character textual form is the
object of study and is modelled as a `List Char`.
-/

namespace EpicScoreBot

/-- Lifecycle status of an epic or risk (internal/models/domain, `Status`):
NEW, SCORING, SCORED. The spec's names NEW / IN_PROGRESS / COMPLETE map to
new / scoring / scored. -/
inductive Status where
  | new
  | scoring
  | scored
deriving Repr, DecidableEq

/-- A scoring participant (domain.User); only the fields the scoring engine
reads. `weight` is the Go `int` Weight field. -/
structure UserRow where
  id : Nat
  weight : Int
deriving Repr, DecidableEq

/-- One membership row of the user_teams table. -/
structure UserTeamRow where
  userId : Nat
  teamId : Nat
deriving Repr, DecidableEq

/-- An epic (domain.Epic); fields the engine reads and writes. -/
structure EpicRow where
  id : Nat
  teamId : Nat
  status : Status
  finalScore : Option ℚ
deriving Repr, DecidableEq

/-- A risk (domain.Risk); fields the engine reads and writes. -/
structure RiskRow where
  id : Nat
  epicId : Nat
  status : Status
  weightedScore : Option ℚ
deriving Repr, DecidableEq

/-- One row of epic_scores (domain.EpicScore): a user's effort score for an
epic, under the role held at submission time. -/
structure EpicScoreRow where
  epicId : Nat
  userId : Nat
  roleId : Nat
  score : Int
deriving Repr, DecidableEq

/-- One row of risk_scores (domain.RiskScore): probability and impact, Go
ints. -/
structure RiskScoreRow where
  riskId : Nat
  userId : Nat
  probability : Int
  impact : Int
deriving Repr, DecidableEq

/-- One row of epic_role_scores (domain.EpicRoleScore): the per-role weighted
average for an epic. -/
structure EpicRoleScoreRow where
  epicId : Nat
  roleId : Nat
  weightedAvg : ℚ
deriving Repr, DecidableEq

/-- The persistent store visible to the scoring engine: the tables the
repository queries in internal/repositories touch. -/
structure DB where
  users : List UserRow
  userTeams : List UserTeamRow
  epics : List EpicRow
  risks : List RiskRow
  epicScores : List EpicScoreRow
  riskScores : List RiskScoreRow
  epicRoleScores : List EpicRoleScoreRow
deriving Repr, DecidableEq

/-- Repository.GetEpicByID: SELECT ... FROM epics WHERE id = $1. -/
def getEpicByID (db : DB) (epicId : Nat) : Option EpicRow :=
  db.epics.find? (fun e => e.id == epicId)

/-- Repository.GetRiskByID: SELECT ... FROM risks WHERE id = $1. -/
def getRiskByID (db : DB) (riskId : Nat) : Option RiskRow :=
  db.risks.find? (fun r => r.id == riskId)

/-- Repository.GetUserByID: SELECT ... FROM users WHERE id = $1. -/
def getUserByID (db : DB) (userId : Nat) : Option UserRow :=
  db.users.find? (fun u => u.id == userId)

/-- Repository.CountTeamMembers: SELECT COUNT(*) FROM user_teams WHERE
team_id = $1. -/
def countTeamMembers (db : DB) (teamId : Nat) : Nat :=
  (db.userTeams.filter (fun ut => ut.teamId == teamId)).length

/-- Repository.CountEpicScores: SELECT COUNT(*) FROM epic_scores WHERE
epic_id = $1. -/
def countEpicScores (db : DB) (epicId : Nat) : Nat :=
  (db.epicScores.filter (fun s => s.epicId == epicId)).length

/-- Repository.CountRiskScores: SELECT COUNT(*) FROM risk_scores WHERE
risk_id = $1. -/
def countRiskScores (db : DB) (riskId : Nat) : Nat :=
  (db.riskScores.filter (fun s => s.riskId == riskId)).length

/-- Repository.GetEpicScoresByEpicIDAndRoleID: SELECT ... FROM epic_scores
WHERE epic_id = $1 AND role_id = $2. -/
def getEpicScoresByEpicIDAndRoleID (db : DB) (epicId roleId : Nat) :
    List EpicScoreRow :=
  db.epicScores.filter (fun s => s.epicId == epicId && s.roleId == roleId)

/-- Repository.GetRiskScoresByRiskID: SELECT ... FROM risk_scores WHERE
risk_id = $1. -/
def getRiskScoresByRiskID (db : DB) (riskId : Nat) : List RiskScoreRow :=
  db.riskScores.filter (fun s => s.riskId == riskId)

/-- Repository.GetDistinctRoleIDsForEpicScores: SELECT DISTINCT role_id FROM
epic_scores WHERE epic_id = $1. -/
def getDistinctRoleIDs (db : DB) (epicId : Nat) : List Nat :=
  ((db.epicScores.filter (fun s => s.epicId == epicId)).map
    (fun s => s.roleId)).dedup

/-- Repository.GetRisksByEpicID: SELECT ... FROM risks WHERE epic_id = $1. -/
def getRisksByEpicID (db : DB) (epicId : Nat) : List RiskRow :=
  db.risks.filter (fun r => r.epicId == epicId)

/-- Repository.SetEpicFinalScore: UPDATE epics SET final_score = $1,
status = SCORED WHERE id = $3.  One statement writes the score and performs
the status transition. -/
def setEpicFinalScore (db : DB) (epicId : Nat) (score : ℚ) : DB :=
  { db with epics := db.epics.map (fun e =>
      if e.id == epicId then
        { e with finalScore := some score, status := Status.scored }
      else e) }

/-- Repository.SetRiskWeightedScore: UPDATE risks SET weighted_score = $1,
status = SCORED WHERE id = $3. -/
def setRiskWeightedScore (db : DB) (riskId : Nat) (score : ℚ) : DB :=
  { db with risks := db.risks.map (fun r =>
      if r.id == riskId then
        { r with weightedScore := some score, status := Status.scored }
      else r) }

/-- Generic upsert used to model the repository's INSERT ... ON CONFLICT
(key) DO UPDATE statements against a table whose key is UNIQUE: if a row
matching the key exists it is updated in place, otherwise a new row is
appended. -/
def upsertBy {α : Type} (key : α → Bool) (upd : α → α) (mk : α)
    (l : List α) : List α :=
  if l.any key then l.map (fun x => if key x then upd x else x)
  else l ++ [mk]

/-- Repository.UpsertEpicRoleScore: INSERT INTO epic_role_scores ... ON
CONFLICT (epic_id, role_id) DO UPDATE SET weighted_avg = $4. -/
def upsertEpicRoleScore (db : DB) (epicId roleId : Nat) (avg : ℚ) : DB :=
  { db with epicRoleScores :=
      (upsertBy (fun s => s.epicId == epicId && s.roleId == roleId)
        (fun s => { s with weightedAvg := avg })
        ⟨epicId, roleId, avg⟩ db.epicRoleScores) }

/-- Repository.CreateEpicScore: INSERT INTO epic_scores ... ON CONFLICT
(epic_id, user_id) DO UPDATE SET score = $5, role_id = $4. -/
def createEpicScore (db : DB) (epicId userId roleId : Nat) (score : Int) :
    DB :=
  { db with epicScores :=
      (upsertBy (fun s => s.epicId == epicId && s.userId == userId)
        (fun s => { s with score := score, roleId := roleId })
        ⟨epicId, userId, roleId, score⟩ db.epicScores) }

/-- Repository.CreateRiskScore: INSERT INTO risk_scores ... ON CONFLICT
(risk_id, user_id) DO UPDATE SET probability = $4, impact = $5. -/
def createRiskScore (db : DB) (riskId userId : Nat) (probability impact : Int) :
    DB :=
  { db with riskScores :=
      (upsertBy (fun s => s.riskId == riskId && s.userId == userId)
        (fun s => { s with probability := probability, impact := impact })
        ⟨riskId, userId, probability, impact⟩ db.riskScores) }

/-- A persisted write performed by the scoring engine; the engine's
functions return the trace of writes alongside the updated store, so frame
claims ("no writes of any kind") can be stated. -/
inductive Write where
  | upsertRole (epicId roleId : Nat) (avg : ℚ)
  | setFinal (epicId : Nat) (score : ℚ)
  | setRiskScore (riskId : Nat) (score : ℚ)
deriving Repr, DecidableEq

/-- Floor of a rational, computable through floored integer division. -/
def ratFloor (q : ℚ) : ℤ :=
  q.num.fdiv q.den

/-- Go's math.Round: round to the nearest integer, halves away from zero. -/
def roundHalfAway (q : ℚ) : ℤ :=
  if 0 ≤ q then ratFloor (q + 1 / 2) else -ratFloor (-q + 1 / 2)

/-- scoring.RiskCoefficient: maps a weighted risk score to a multiplier
coefficient, thresholding on the rounded score. Go's 1.30 / 1.20 / 1.10 /
1.05 literals are the rationals 13/10, 6/5, 11/10, 21/20. -/
def riskCoefficient (weightedScore : ℚ) : ℚ :=
  let rounded := roundHalfAway weightedScore
  if 13 ≤ rounded then 13 / 10
  else if 9 ≤ rounded then 6 / 5
  else if 5 ≤ rounded then 11 / 10
  else 21 / 20

/-- The accumulation loop of scoring.CalculateEpicRoleAvg: for each score
row look up the submitting user and accumulate score×weight and weight;
a missing user aborts with an error (`none`). -/
def epicSumLoop (db : DB) : List EpicScoreRow → ℚ → ℚ → Option (ℚ × ℚ)
  | [], weightedSum, totalWeight => some (weightedSum, totalWeight)
  | s :: rest, weightedSum, totalWeight =>
    match getUserByID db s.userId with
    | none => none
    | some u =>
      epicSumLoop db rest (weightedSum + (s.score : ℚ) * (u.weight : ℚ))
        (totalWeight + (u.weight : ℚ))

/-- scoring.CalculateEpicRoleAvg: weighted average score for a role on an
epic; 0 if there are no scores or the total weight is 0. -/
def calculateEpicRoleAvg (db : DB) (epicId roleId : Nat) : Option ℚ :=
  let scores := getEpicScoresByEpicIDAndRoleID db epicId roleId
  if scores.isEmpty then some 0
  else
    match epicSumLoop db scores 0 0 with
    | none => none
    | some (weightedSum, totalWeight) =>
      if totalWeight = 0 then some 0 else some (weightedSum / totalWeight)

/-- The accumulation loop of scoring.CalculateRiskWeightedScore: a user's
risk score is probability × impact. -/
def riskSumLoop (db : DB) : List RiskScoreRow → ℚ → ℚ → Option (ℚ × ℚ)
  | [], weightedSum, totalWeight => some (weightedSum, totalWeight)
  | s :: rest, weightedSum, totalWeight =>
    match getUserByID db s.userId with
    | none => none
    | some u =>
      riskSumLoop db rest
        (weightedSum + ((s.probability * s.impact : Int) : ℚ) * (u.weight : ℚ))
        (totalWeight + (u.weight : ℚ))

/-- scoring.CalculateRiskWeightedScore: weighted average of probability ×
impact over all risk scores; 0 if there are none or total weight is 0. -/
def calculateRiskWeightedScore (db : DB) (riskId : Nat) : Option ℚ :=
  let scores := getRiskScoresByRiskID db riskId
  if scores.isEmpty then some 0
  else
    match riskSumLoop db scores 0 0 with
    | none => none
    | some (weightedSum, totalWeight) =>
      if totalWeight = 0 then some 0 else some (weightedSum / totalWeight)

/-- The per-role loop inside scoring.TryCompleteEpicScoring: for every role
with at least one score, compute the weighted average, upsert it into
epic_role_scores, and add it to the running base score. -/
def roleLoop (epicId : Nat) :
    List Nat → DB → ℚ → Option (DB × List Write × ℚ)
  | [], db, base => some (db, [], base)
  | roleId :: rest, db, base =>
    match calculateEpicRoleAvg db epicId roleId with
    | none => none
    | some avg =>
      match roleLoop epicId rest (upsertEpicRoleScore db epicId roleId avg)
          (base + avg) with
      | none => none
      | some (db2, writes, b) =>
        some (db2, Write.upsertRole epicId roleId avg :: writes, b)

/-- The risk-coefficient fold inside scoring.TryCompleteEpicScoring: the
coefficient of each risk that has a weighted score is multiplied into the
running final score. -/
def applyCoefficients (base : ℚ) (risks : List RiskRow) : ℚ :=
  risks.foldl (fun acc r =>
    match r.weightedScore with
    | some w => acc * riskCoefficient w
    | none => acc) base

/-- scoring.TryCompleteEpicScoring: if the epic is already SCORED it is a
no-op; otherwise, once every team member has scored, recompute and upsert
the per-role weighted averages, and if additionally every risk of the epic
is SCORED, apply the risk coefficients, round, and persist the final score
together with the transition to SCORED.  Returns the updated store and the
trace of writes; `none` models a repository error. -/
def tryCompleteEpicScoring (db : DB) (epicId : Nat) :
    Option (DB × List Write) :=
  match getEpicByID db epicId with
  | none => none
  | some epic =>
    if epic.status = Status.scored then some (db, [])
    else
      if countEpicScores db epicId < countTeamMembers db epic.teamId then
        some (db, [])
      else
        match roleLoop epicId (getDistinctRoleIDs db epicId) db 0 with
        | none => none
        | some (db1, writes, base) =>
          let risks := getRisksByEpicID db1 epicId
          if risks.all (fun r => r.status == Status.scored) then
            let finalScore : ℚ := (roundHalfAway (applyCoefficients base risks) : ℤ)
            some (setEpicFinalScore db1 epicId finalScore,
              writes ++ [Write.setFinal epicId finalScore])
          else
            some (db1, writes)

/-- scoring.TryCompleteRiskScoring: once every team member has scored the
risk, recompute the weighted score, persist it (status → SCORED), and
cascade into the owning epic's completion check.  There is no guard on the
risk's current status. -/
def tryCompleteRiskScoring (db : DB) (riskId : Nat) :
    Option (DB × List Write) :=
  match getRiskByID db riskId with
  | none => none
  | some risk =>
    match getEpicByID db risk.epicId with
    | none => none
    | some epic =>
      if countRiskScores db riskId < countTeamMembers db epic.teamId then
        some (db, [])
      else
        match calculateRiskWeightedScore db riskId with
        | none => none
        | some ws =>
          match tryCompleteEpicScoring (setRiskWeightedScore db riskId ws)
              risk.epicId with
          | none => none
          | some (db2, writes) =>
            some (db2, Write.setRiskScore riskId ws :: writes)

/-- Hexadecimal digit test, as accepted by uuid.Parse's xtob tables. -/
def isHexDigit (c : Char) : Bool :=
  (Char.ofNat 48 ≤ c && c ≤ Char.ofNat 57) ||
  (Char.ofNat 97 ≤ c && c ≤ Char.ofNat 102) ||
  (Char.ofNat 65 ≤ c && c ≤ Char.ofNat 70)

/-- Canonical 36-character UUID form accepted by uuid.Parse for inputs of
length 36: hyphen-separated hex groups 8-4-4-4-12, hyphens at indices 8,
13, 18 and 23. -/
def isUUIDChars (l : List Char) : Bool :=
  l.length == 36 &&
  (List.range 36).all (fun i =>
    if i == 8 || i == 13 || i == 18 || i == 23 then
      l.getD i (Char.ofNat 32) == Char.ofNat 45
    else isHexDigit (l.getD i (Char.ofNat 32)))

/-- strings.TrimPrefix: drop the domain prefix when present, otherwise
return the input unchanged. -/
def trimDomain (pre l : List Char) : List Char :=
  if l.take pre.length = pre then l.drop pre.length else l

/-- One-identifier token decode, after the domain prefix has been stripped
(telegram/admin_callbacks.go handleAdmUserSelected and its siblings):
reject when fewer than 38 characters remain, take the last 36 characters as
the identifier, discard the separator before it, keep the rest as the
action; reject when the identifier does not parse as a UUID.  `none` is the
malformed-token reply. -/
def decodeOneId (rest : List Char) : Option (List Char × List Char) :=
  if rest.length < 38 then none
  else if isUUIDChars (rest.drop (rest.length - 36)) then
    some (rest.take (rest.length - 37), rest.drop (rest.length - 36))
  else none

/-- Two-identifier token decode, after the domain prefix has been stripped
(telegram/admin_callbacks.go handleAdmRiskSelected): reject when fewer than
74 characters remain, then peel the trailing 36-character identifier twice
from the right; reject when either extracted substring does not parse as a
UUID. -/
def decodeTwoId (rest : List Char) :
    Option (List Char × List Char × List Char) :=
  if rest.length < 74 then none
  else if isUUIDChars ((rest.take (rest.length - 37)).drop
      ((rest.take (rest.length - 37)).length - 36)) then
    if isUUIDChars (rest.drop (rest.length - 36)) then
      some ((rest.take (rest.length - 37)).take
              ((rest.take (rest.length - 37)).length - 37),
            (rest.take (rest.length - 37)).drop
              ((rest.take (rest.length - 37)).length - 36),
            rest.drop (rest.length - 36))
    else none
  else none

/-- Encoding of a one-identifier token body (the part after the domain
prefix), as built by the keyboard constructors: action, separator,
identifier. -/
def encodeOneId (act idOne : List Char) : List Char :=
  act ++ Char.ofNat 95 :: idOne

/-- Encoding of a two-identifier token body: action, separator, first
identifier, separator, second identifier. -/
def encodeTwoId (act idOne idTwo : List Char) : List Char :=
  act ++ Char.ofNat 95 :: idOne ++ Char.ofNat 95 :: idTwo

/-- Validation of the free-text effort submission path
(telegram/handlers.go, handleSessionInput, step StepScoreEpicEffort):
after strconv.Atoi succeeds the value is rejected when `score < 0 ||
score > 500`. -/
def sessionEffortAccepts (score : Int) : Bool :=
  !(score < 0 || score > 500)

/-- Validation of the button-token effort submission path
(telegram/callbacks.go, handleEpicScoreSubmit): after strconv.Atoi succeeds
the value is rejected when `score < 1`. -/
def buttonEffortAccepts (score : Int) : Bool :=
  !(score < 1)

/-- The multi-step input steps named by internal/telegram/handlers.go. -/
inductive Step where
  | addUserUsername
  | addUserFirstName
  | addUserLastName
  | addUserWeight
  | renameUserFirstName
  | renameUserLastName
  | changeRateWeight
  | addEpicNumber
  | addEpicName
  | addEpicDesc
  | addRiskDesc
  | scoreEpicEffort
deriving Repr, DecidableEq

/-- Per-conversation session value (the `Session` struct used throughout
internal/telegram): current step, thread id, and a string scratch map. -/
structure Session where
  step : Step
  threadId : Int
  data : List (String × String)
deriving Repr, DecidableEq

/-- Modelled from the spec: the `sessionStore` implementation (constructed
by `newSessionStore()` and used via set/get/touch/clear across
internal/telegram) is not among the provided sources; spec §4.1 describes
it as a map from conversation id to session with a fixed TTL, lazy expiry
on read, last-write-wins set, touch extending the expiry, and clear
removing the entry.  Time is an explicit `now` parameter. -/
structure SessionStore where
  entries : List (Int × Session × Nat)
deriving Repr, DecidableEq

/-- Modelled from the spec: fixed five-minute TTL, in seconds. -/
def sessionTTL : Nat := 300

/-- Modelled from the spec: `set` unconditionally replaces any existing
session for the conversation and stamps expiry now + TTL. -/
def sessionsSet (st : SessionStore) (chatId : Int) (s : Session)
    (now : Nat) : SessionStore :=
  ⟨(chatId, s, now + sessionTTL) :: st.entries.filter (fun e => !(e.1 == chatId))⟩

/-- Modelled from the spec: `get` returns not-found when no entry exists or
its expiry has passed (lazy expiry at read time). -/
def sessionsGet (st : SessionStore) (chatId : Int) (now : Nat) :
    Option Session :=
  match st.entries.find? (fun e => e.1 == chatId) with
  | none => none
  | some (_, s, expiry) => if now < expiry then some s else none

/-- Modelled from the spec: `touch` extends the expiry without changing the
stored session. -/
def sessionsTouch (st : SessionStore) (chatId : Int) (now : Nat) :
    SessionStore :=
  ⟨st.entries.map (fun e =>
    if e.1 == chatId then (e.1, e.2.1, now + sessionTTL) else e)⟩

/-- Modelled from the spec: `clear` removes the conversation's entry. -/
def sessionsClear (st : SessionStore) (chatId : Int) : SessionStore :=
  ⟨st.entries.filter (fun e => !(e.1 == chatId))⟩

/-- The top-level commands dispatched by the switch in
telegram/handlers.go `commandHandler`. -/
inductive Cmd where
  | start
  | help
  | addteam
  | adduser
  | renameuser
  | assignrole
  | assignteam
  | addepic
  | addrisk
  | startscore
  | results
  | epicstatus
  | score
  | unassignrole
  | removefromteam
  | deleteepic
  | deleterisk
  | deleteuser
  | changerate
  | addadmin
  | removeadmin
  | list
  | unknown
deriving Repr, DecidableEq

/-- Session-store effect of dispatching one top-level command (the body of
the switch in handlers.go `commandHandler`).  Checked against the sources:
among all command handlers only `handleAddUser`'s interactive branch
(fewer than four command arguments) touches the session store, setting a
fresh StepAddUserUsername session with an empty scratch map; every other
handler only sends replies and performs repository calls. -/
def dispatchSessionEffect (cmd : Cmd) (interactiveAddUser : Bool)
    (chatId threadId : Int) (now : Nat) (st : SessionStore) : SessionStore :=
  match cmd with
  | Cmd.adduser =>
    if interactiveAddUser then
      sessionsSet st chatId ⟨Step.addUserUsername, threadId, []⟩ now
    else st
  | _ => st

/-- telegram/handlers.go `commandHandler`, restricted to its session-store
effect: starting any command first clears the conversation's pending
session, then dispatches. -/
def commandHandlerSessions (st : SessionStore) (chatId threadId : Int)
    (cmd : Cmd) (interactiveAddUser : Bool) (now : Nat) : SessionStore :=
  dispatchSessionEffect cmd interactiveAddUser chatId threadId now
    (sessionsClear st chatId)

/-- Recognizer for final-score writes in a write trace. -/
def Write.isFinal : Write → Bool
  | Write.setFinal _ _ => true
  | _ => false

/-- The weight the engine reads for a user id (0 if the user is absent;
the engine errors out in that case before using the value). -/
def weightOf (db : DB) (userId : Nat) : ℚ :=
  match getUserByID db userId with
  | some u => (u.weight : ℚ)
  | none => 0

/-- Value contributed by an effort assessment: the submitted score. -/
def epicScoreValue (s : EpicScoreRow) : ℚ :=
  (s.score : ℚ)

/-- Value contributed by a risk assessment: probability × impact. -/
def riskScoreValue (s : RiskScoreRow) : ℚ :=
  ((s.probability * s.impact : Int) : ℚ)

/-- The role average the engine computes, as a plain value. -/
def roleAvgOn (db : DB) (epicId roleId : Nat) : ℚ :=
  (calculateEpicRoleAvg db epicId roleId).getD 0

/-- The coefficient a completed risk contributes. -/
def coeffOf (r : RiskRow) : ℚ :=
  riskCoefficient (r.weightedScore.getD 0)

/-- The canonical UUID string from the spec's round-trip example. -/
def sampleUUID : List Char :=
  "3fa85f64-5717-4562-b3fc-2c963f66afa6".toList

/-- A 74-character two-identifier token remainder: a separator, a UUID, a
separator and a second UUID, with an empty action. -/
def shortTwoIdRest : List Char :=
  Char.ofNat 95 :: sampleUUID ++ Char.ofNat 95 :: sampleUUID

/-- One-member team, epic 1 with one effort score and no risks: quorum is
reached and the completion check completes the epic. -/
def c1db : DB :=
  ⟨[⟨1, 100⟩], [⟨1, 7⟩], [⟨1, 7, Status.scoring, none⟩], [],
   [⟨1, 1, 5, 10⟩], [], []⟩

/-- The store after completing epic 1 of `c1db`. -/
def c1dbAfter : DB :=
  ⟨[⟨1, 100⟩], [⟨1, 7⟩], [⟨1, 7, Status.scored, some 10⟩], [],
   [⟨1, 1, 5, 10⟩], [], [⟨1, 5, 10⟩]⟩

/-- One-member team, epic 1 at effort quorum with one still-SCORING risk. -/
def c2db : DB :=
  ⟨[⟨1, 100⟩], [⟨1, 7⟩], [⟨1, 7, Status.scoring, none⟩],
   [⟨2, 1, Status.scoring, none⟩], [⟨1, 1, 5, 10⟩], [], []⟩

/-- The store after running the completion check on `c2db`: the per-role
average has been upserted although the epic did not complete. -/
def c2dbAfter : DB :=
  ⟨[⟨1, 100⟩], [⟨1, 7⟩], [⟨1, 7, Status.scoring, none⟩],
   [⟨2, 1, Status.scoring, none⟩], [⟨1, 1, 5, 10⟩], [],
   [⟨1, 5, 10⟩]⟩

/-- One-member team; risk 2 of the already-SCORED epic 1 is itself already
SCORED with persisted weighted score 9, while its stored assessment
(probability 4 × impact 4) now yields 16. -/
def c3db : DB :=
  ⟨[⟨1, 100⟩], [⟨1, 7⟩], [⟨1, 7, Status.scored, some 19⟩],
   [⟨2, 1, Status.scored, some 9⟩], [], [⟨2, 1, 4, 4⟩], []⟩

/-- The store after re-running the risk completion check on `c3db`: the
persisted weighted score has been overwritten with the recomputed 16. -/
def c3dbAfter : DB :=
  ⟨[⟨1, 100⟩], [⟨1, 7⟩], [⟨1, 7, Status.scored, some 19⟩],
   [⟨2, 1, Status.scored, some 16⟩], [], [⟨2, 1, 4, 4⟩], []⟩

/-- Three-member team (weights 100, 50, 100), two completed risks with
weighted scores 3 and 10, effort scores 10/10 under role 101 and 5 under
role 102: role averages 10 and 5, coefficients 21/20 and 6/5. -/
def c4db : DB :=
  ⟨[⟨1, 100⟩, ⟨2, 50⟩, ⟨3, 100⟩],
   [⟨1, 7⟩, ⟨2, 7⟩, ⟨3, 7⟩],
   [⟨1, 7, Status.scoring, none⟩],
   [⟨11, 1, Status.scored, some 3⟩, ⟨12, 1, Status.scored, some 10⟩],
   [⟨1, 1, 101, 10⟩, ⟨1, 2, 101, 10⟩, ⟨1, 3, 102, 5⟩],
   [], []⟩

/-- Two-member team with weights 0 for the total-weight-0 case, plus a
risk with two assessments, for the weighted-average claims. -/
def c5db : DB :=
  ⟨[⟨1, 100⟩, ⟨2, 50⟩],
   [⟨1, 7⟩, ⟨2, 7⟩],
   [⟨1, 7, Status.scoring, none⟩],
   [⟨2, 1, Status.scoring, none⟩],
   [⟨1, 1, 101, 10⟩, ⟨1, 2, 101, 4⟩],
   [⟨2, 1, 2, 3⟩, ⟨2, 2, 1, 4⟩],
   []⟩

/-- Number of distinct users having an effort assessment for an epic
(SELECT COUNT(DISTINCT user_id) over epic_scores). -/
def distinctEpicSubmitters (db : DB) (epicId : Nat) : Nat :=
  (((db.epicScores.filter (fun s => s.epicId == epicId)).map
    (fun s => s.userId)).dedup).length

/-- Number of distinct users having an assessment for a risk. -/
def distinctRiskSubmitters (db : DB) (riskId : Nat) : Nat :=
  (((db.riskScores.filter (fun s => s.riskId == riskId)).map
    (fun s => s.userId)).dedup).length

/-- Number of epic_scores rows for one (epic, user) pair; the table's
UNIQUE (epic_id, user_id) constraint demands this stays at most 1. -/
def epicPairCount (l : List EpicScoreRow) (e u : Nat) : Nat :=
  l.countP (fun s => s.epicId == e && s.userId == u)

/-- Number of risk_scores rows for one (risk, user) pair; UNIQUE
(risk_id, user_id). -/
def riskPairCount (l : List RiskScoreRow) (rk u : Nat) : Nat :=
  l.countP (fun s => s.riskId == rk && s.userId == u)

/-- A store with one existing effort assessment (epic 1, user 1) and one
existing risk assessment (risk 2, user 1), for the re-submission claims. -/
def c8db : DB :=
  ⟨[⟨1, 100⟩], [⟨1, 7⟩], [⟨1, 7, Status.scoring, none⟩],
   [⟨2, 1, Status.scoring, none⟩], [⟨1, 1, 5, 10⟩], [⟨2, 1, 2, 2⟩], []⟩

/-- A session store holding one pending session for conversation 42 that
expires at time 100. -/
def c9store : SessionStore :=
  ⟨[(42, ⟨Step.scoreEpicEffort, 0, []⟩, 100)]⟩

attribute [local semireducible] Rat.add Rat.mul Rat.inv Rat.sub

section Lemmas

lemma find?_map_of_key {α : Type} (f : α → α) (p : α → Bool)
    (hp : ∀ x, p (f x) = p x) (l : List α) :
    (l.map f).find? p = (l.find? p).map f := by
  induction l with
  | nil => rfl
  | cons a t ih =>
    by_cases h : p a = true
    · simp [List.find?, hp, h]
    · simp only [Bool.not_eq_true] at h
      simp [List.find?, hp, h, ih]

lemma find?_filter_not {α : Type} (p : α → Bool) (l : List α) :
    (l.filter (fun x => !(p x))).find? p = none := by
  rw [List.find?_eq_none]
  intro x hx
  have := List.of_mem_filter hx
  simp only [Bool.not_eq_true'] at this
  simp [this]

lemma getUserByID_congr (db1 db2 : DB) (h : db1.users = db2.users) :
    getUserByID db1 = getUserByID db2 := by
  funext u
  unfold getUserByID
  rw [h]

lemma epicSumLoop_spec (db : DB) (l : List EpicScoreRow)
    (h : ∀ s ∈ l, (getUserByID db s.userId).isSome) :
    ∀ a b : ℚ, epicSumLoop db l a b =
      some (a + (l.map (fun s => epicScoreValue s * weightOf db s.userId)).sum,
            b + (l.map (fun s => weightOf db s.userId)).sum) := by
  induction l with
  | nil => intro a b; simp [epicSumLoop]
  | cons s t ih =>
    intro a b
    obtain ⟨u, hu⟩ := Option.isSome_iff_exists.mp (h s (List.mem_cons_self s t))
    simp only [epicSumLoop, hu]
    rw [ih (fun x hx => h x (List.mem_cons_of_mem s hx))]
    simp [epicScoreValue, weightOf, hu, add_assoc]

lemma riskSumLoop_spec (db : DB) (l : List RiskScoreRow)
    (h : ∀ s ∈ l, (getUserByID db s.userId).isSome) :
    ∀ a b : ℚ, riskSumLoop db l a b =
      some (a + (l.map (fun s => riskScoreValue s * weightOf db s.userId)).sum,
            b + (l.map (fun s => weightOf db s.userId)).sum) := by
  induction l with
  | nil => intro a b; simp [riskSumLoop]
  | cons s t ih =>
    intro a b
    obtain ⟨u, hu⟩ := Option.isSome_iff_exists.mp (h s (List.mem_cons_self s t))
    simp only [riskSumLoop, hu]
    rw [ih (fun x hx => h x (List.mem_cons_of_mem s hx))]
    simp [riskScoreValue, weightOf, hu, add_assoc]

lemma calculateEpicRoleAvg_spec (db : DB) (e r : Nat)
    (h : ∀ s ∈ getEpicScoresByEpicIDAndRoleID db e r,
      (getUserByID db s.userId).isSome) :
    calculateEpicRoleAvg db e r =
      some (((getEpicScoresByEpicIDAndRoleID db e r).map
              (fun s => epicScoreValue s * weightOf db s.userId)).sum /
            ((getEpicScoresByEpicIDAndRoleID db e r).map
              (fun s => weightOf db s.userId)).sum) := by
  unfold calculateEpicRoleAvg
  by_cases he : (getEpicScoresByEpicIDAndRoleID db e r).isEmpty
  · rw [List.isEmpty_iff] at he
    simp [he]
  · simp only [he, if_false, Bool.false_eq_true]
    rw [epicSumLoop_spec db _ h 0 0]
    simp only [zero_add]
    by_cases hw : ((getEpicScoresByEpicIDAndRoleID db e r).map
        (fun s => weightOf db s.userId)).sum = 0
    · simp [hw, div_zero]
    · simp [hw]

lemma calculateRiskWeightedScore_spec (db : DB) (rk : Nat)
    (h : ∀ s ∈ getRiskScoresByRiskID db rk, (getUserByID db s.userId).isSome) :
    calculateRiskWeightedScore db rk =
      some (((getRiskScoresByRiskID db rk).map
              (fun s => riskScoreValue s * weightOf db s.userId)).sum /
            ((getRiskScoresByRiskID db rk).map
              (fun s => weightOf db s.userId)).sum) := by
  unfold calculateRiskWeightedScore
  by_cases he : (getRiskScoresByRiskID db rk).isEmpty
  · rw [List.isEmpty_iff] at he
    simp [he]
  · simp only [he, if_false, Bool.false_eq_true]
    rw [riskSumLoop_spec db _ h 0 0]
    simp only [zero_add]
    by_cases hw : ((getRiskScoresByRiskID db rk).map
        (fun s => weightOf db s.userId)).sum = 0
    · simp [hw, div_zero]
    · simp [hw]

lemma epicSumLoop_congr (db1 db2 : DB) (hu : db1.users = db2.users) :
    epicSumLoop db1 = epicSumLoop db2 := by
  funext l
  induction l with
  | nil => funext a b; rfl
  | cons s t ih =>
    funext a b
    simp only [epicSumLoop, getUserByID_congr db1 db2 hu]
    cases getUserByID db2 s.userId with
    | none => rfl
    | some u => exact congrFun (congrFun ih _) _

lemma calculateEpicRoleAvg_congr (db1 db2 : DB) (e r : Nat)
    (hs : db1.epicScores = db2.epicScores) (hu : db1.users = db2.users) :
    calculateEpicRoleAvg db1 e r = calculateEpicRoleAvg db2 e r := by
  unfold calculateEpicRoleAvg getEpicScoresByEpicIDAndRoleID
  rw [hs, epicSumLoop_congr db1 db2 hu]

lemma roleLoop_spec (e : Nat) (roles : List Nat) :
    ∀ (db : DB) (b : ℚ),
    (∀ r0 ∈ roles, ∀ s ∈ getEpicScoresByEpicIDAndRoleID db e r0,
      (getUserByID db s.userId).isSome) →
    ∃ db2 ws,
      roleLoop e roles db b =
        some (db2, ws, b + (roles.map (fun r0 => roleAvgOn db e r0)).sum) ∧
      db2.users = db.users ∧ db2.userTeams = db.userTeams ∧
      db2.epics = db.epics ∧ db2.risks = db.risks ∧
      db2.epicScores = db.epicScores ∧ db2.riskScores = db.riskScores ∧
      (∀ w ∈ ws, ∃ r0 a, w = Write.upsertRole e r0 a) := by
  induction roles with
  | nil =>
    intro db b _
    refine ⟨db, [], ?_, rfl, rfl, rfl, rfl, rfl, rfl, ?_⟩
    · simp [roleLoop]
    · intro w hw
      simp at hw
  | cons r0 t ih =>
    intro db b h
    have hav := calculateEpicRoleAvg_spec db e r0
      (h r0 (List.mem_cons_self r0 t))
    set avg := roleAvgOn db e r0 with havg
    have hsome : calculateEpicRoleAvg db e r0 = some avg := by
      rw [hav]
      simp [havg, roleAvgOn, hav]
    have hframe1 : (upsertEpicRoleScore db e r0 avg).epicScores = db.epicScores := rfl
    have hframe2 : (upsertEpicRoleScore db e r0 avg).users = db.users := rfl
    obtain ⟨db2, ws, hrl, hu2, hut2, he2, hr2, hes2, hrs2, hws⟩ :=
      ih (upsertEpicRoleScore db e r0 avg) (b + avg) (by
        intro r1 hr1 s hs
        have : getEpicScoresByEpicIDAndRoleID (upsertEpicRoleScore db e r0 avg) e r1 =
            getEpicScoresByEpicIDAndRoleID db e r1 := rfl
        rw [this] at hs
        rw [getUserByID_congr (upsertEpicRoleScore db e r0 avg) db hframe2]
        exact h r1 (List.mem_cons_of_mem r0 hr1) s hs)
    refine ⟨db2, Write.upsertRole e r0 avg :: ws, ?_, ?_, ?_, ?_, ?_, ?_, ?_, ?_⟩
    · have hcongr : ∀ r1, roleAvgOn (upsertEpicRoleScore db e r0 avg) e r1 =
          roleAvgOn db e r1 := by
        intro r1
        unfold roleAvgOn
        rw [calculateEpicRoleAvg_congr (upsertEpicRoleScore db e r0 avg) db e r1
          hframe1 hframe2]
      simp only [roleLoop, hsome, hrl, hcongr, List.map_cons, List.sum_cons,
        add_assoc]
    · rw [hu2]; rfl
    · rw [hut2]; rfl
    · rw [he2]; rfl
    · rw [hr2]; rfl
    · rw [hes2]; rfl
    · rw [hrs2]; rfl
    · intro w hw
      rcases List.mem_cons.mp hw with h1 | h1
      · exact ⟨r0, avg, h1⟩
      · exact hws w h1

lemma applyCoefficients_spec (risks : List RiskRow) :
    ∀ base : ℚ, (∀ r ∈ risks, r.weightedScore.isSome) →
    applyCoefficients base risks = base * (risks.map coeffOf).prod := by
  induction risks with
  | nil => intro base _; simp [applyCoefficients]
  | cons r t ih =>
    intro base h
    obtain ⟨w, hw⟩ := Option.isSome_iff_exists.mp (h r (List.mem_cons_self r t))
    have step : applyCoefficients base (r :: t) =
        applyCoefficients (base * riskCoefficient w) t := by
      unfold applyCoefficients
      rw [List.foldl_cons, hw]
    rw [step, ih (base * riskCoefficient w)
      (fun x hx => h x (List.mem_cons_of_mem r hx))]
    simp [coeffOf, hw, mul_assoc]

lemma getEpicByID_setEpicFinalScore (db : DB) (i : Nat) (s : ℚ) (e : EpicRow)
    (h : getEpicByID db i = some e) :
    getEpicByID (setEpicFinalScore db i s) i =
      some { e with finalScore := some s, status := Status.scored } := by
  unfold getEpicByID at h ⊢
  unfold setEpicFinalScore
  rw [find?_map_of_key _ _ (by
    intro x
    by_cases hx : (x.id == i) = true
    · simp [hx]
    · simp [hx]), h]
  have hpe := List.find?_some h
  rw [Option.map_some']
  rw [if_pos hpe]

lemma getRiskByID_setRiskWeightedScore (db : DB) (i : Nat) (s : ℚ) (r : RiskRow)
    (h : getRiskByID db i = some r) :
    getRiskByID (setRiskWeightedScore db i s) i =
      some { r with weightedScore := some s, status := Status.scored } := by
  unfold getRiskByID at h ⊢
  unfold setRiskWeightedScore
  rw [find?_map_of_key _ _ (by
    intro x
    by_cases hx : (x.id == i) = true
    · simp [hx]
    · simp [hx]), h]
  have hpe := List.find?_some h
  rw [Option.map_some']
  rw [if_pos hpe]

lemma tryCompleteEpicScoring_of_scored (db : DB) (e : Nat) (epic : EpicRow)
    (h : getEpicByID db e = some epic) (hs : epic.status = Status.scored) :
    tryCompleteEpicScoring db e = some (db, []) := by
  unfold tryCompleteEpicScoring
  rw [h]
  simp [hs]

lemma getEpicByID_congr (db1 db2 : DB) (h : db1.epics = db2.epics) :
    getEpicByID db1 = getEpicByID db2 := by
  funext i
  unfold getEpicByID
  rw [h]

lemma getRisksByEpicID_congr (db1 db2 : DB) (h : db1.risks = db2.risks) :
    getRisksByEpicID db1 = getRisksByEpicID db2 := by
  funext i
  unfold getRisksByEpicID
  rw [h]

lemma drop_append_len {α : Type} (l1 l2 : List α) (n : Nat) :
    (l1 ++ l2).drop (l1.length + n) = l2.drop n := by
  induction l1 with
  | nil => simp
  | cons a t ih => simp [Nat.succ_add, ih]

lemma isUUIDChars_length {l : List Char} (h : isUUIDChars l = true) :
    l.length = 36 := by
  unfold isUUIDChars at h
  rw [Bool.and_eq_true] at h
  have h1 := h.1
  simpa using h1

lemma decodeOneId_encode (act idOne : List Char)
    (ha : act ≠ []) (h1 : isUUIDChars idOne = true) :
    decodeOneId (encodeOneId act idOne) = some (act, idOne) := by
  have hid : idOne.length = 36 := isUUIDChars_length h1
  have hpos : 0 < act.length := List.length_pos.mpr ha
  have hL : (encodeOneId act idOne).length = act.length + 37 := by
    simp [encodeOneId, hid]
  have hdrop : (encodeOneId act idOne).drop
      ((encodeOneId act idOne).length - 36) = idOne := by
    rw [hL]
    have harith : act.length + 37 - 36 = act.length + 1 := by omega
    rw [harith]
    show (act ++ Char.ofNat 95 :: idOne).drop (act.length + 1) = idOne
    rw [drop_append_len act (Char.ofNat 95 :: idOne) 1]
    rfl
  have htake : (encodeOneId act idOne).take
      ((encodeOneId act idOne).length - 37) = act := by
    rw [hL]
    have harith : act.length + 37 - 37 = act.length := by omega
    rw [harith]
    exact List.take_left act (Char.ofNat 95 :: idOne)
  unfold decodeOneId
  rw [if_neg (by omega : ¬ ((encodeOneId act idOne).length < 38))]
  rw [hdrop, if_pos h1, htake]

lemma decodeTwoId_encode (act idOne idTwo : List Char)
    (ha : act ≠ []) (h1 : isUUIDChars idOne = true)
    (h2 : isUUIDChars idTwo = true) :
    decodeTwoId (encodeTwoId act idOne idTwo) = some (act, idOne, idTwo) := by
  have hid1 : idOne.length = 36 := isUUIDChars_length h1
  have hid2 : idTwo.length = 36 := isUUIDChars_length h2
  have hpos : 0 < act.length := List.length_pos.mpr ha
  have hrest : encodeTwoId act idOne idTwo =
      encodeOneId act idOne ++ Char.ofNat 95 :: idTwo := by
    simp [encodeTwoId, encodeOneId]
  have hp : (encodeOneId act idOne).length = act.length + 37 := by
    simp [encodeOneId, hid1]
  have hL : (encodeOneId act idOne ++ Char.ofNat 95 :: idTwo).length =
      act.length + 74 := by
    simp [hp, hid2]
  have htake2 : (encodeOneId act idOne ++ Char.ofNat 95 :: idTwo).take
      ((encodeOneId act idOne ++ Char.ofNat 95 :: idTwo).length - 37) =
      encodeOneId act idOne := by
    rw [hL]
    have harith : act.length + 74 - 37 = (encodeOneId act idOne).length := by
      omega
    rw [harith]
    exact List.take_left _ _
  have hdrop2 : (encodeOneId act idOne ++ Char.ofNat 95 :: idTwo).drop
      ((encodeOneId act idOne ++ Char.ofNat 95 :: idTwo).length - 36) =
      idTwo := by
    rw [hL]
    have harith : act.length + 74 - 36 = (encodeOneId act idOne).length + 1 := by
      omega
    rw [harith]
    rw [drop_append_len (encodeOneId act idOne) (Char.ofNat 95 :: idTwo) 1]
    rfl
  have hdrop1 : (encodeOneId act idOne).drop
      ((encodeOneId act idOne).length - 36) = idOne := by
    rw [hp]
    have harith : act.length + 37 - 36 = act.length + 1 := by omega
    rw [harith]
    show (act ++ Char.ofNat 95 :: idOne).drop (act.length + 1) = idOne
    rw [drop_append_len act (Char.ofNat 95 :: idOne) 1]
    rfl
  have htake1 : (encodeOneId act idOne).take
      ((encodeOneId act idOne).length - 37) = act := by
    rw [hp]
    have harith : act.length + 37 - 37 = act.length := by omega
    rw [harith]
    exact List.take_left act (Char.ofNat 95 :: idOne)
  unfold decodeTwoId
  rw [hrest]
  rw [if_neg (by omega : ¬ ((encodeOneId act idOne ++
    Char.ofNat 95 :: idTwo).length < 74))]
  rw [htake2, hdrop1, if_pos h1, hdrop2, if_pos h2, htake1]

lemma decodeOneId_eq_none_iff (rest : List Char) :
    decodeOneId rest = none ↔ rest.length < 38 ∨
      isUUIDChars (rest.drop (rest.length - 36)) = false := by
  unfold decodeOneId
  by_cases hl : rest.length < 38
  · simp [hl]
  · by_cases hu : isUUIDChars (rest.drop (rest.length - 36)) = true
    · simp [hl, hu]
    · simp only [Bool.not_eq_true] at hu
      simp [hl, hu]

lemma decodeTwoId_eq_none_iff (rest : List Char) :
    decodeTwoId rest = none ↔ rest.length < 74 ∨
      isUUIDChars ((rest.take (rest.length - 37)).drop
        ((rest.take (rest.length - 37)).length - 36)) = false ∨
      isUUIDChars (rest.drop (rest.length - 36)) = false := by
  unfold decodeTwoId
  by_cases hl : rest.length < 74
  · rw [if_pos hl]
    exact ⟨fun _ => Or.inl hl, fun _ => rfl⟩
  · rw [if_neg hl]
    by_cases hu1 : isUUIDChars ((rest.take (rest.length - 37)).drop
        ((rest.take (rest.length - 37)).length - 36)) = true
    · rw [if_pos hu1]
      by_cases hu2 : isUUIDChars (rest.drop (rest.length - 36)) = true
      · rw [if_pos hu2]
        constructor
        · intro hcontra
          exact (Option.some_ne_none _ hcontra).elim
        · rintro (hc | hc | hc)
          · exact absurd hc hl
          · rw [hu1] at hc
            exact absurd hc (by decide)
          · rw [hu2] at hc
            exact absurd hc (by decide)
      · rw [if_neg hu2]
        have hu2f : isUUIDChars (rest.drop (rest.length - 36)) = false := by
          revert hu2
          cases isUUIDChars (rest.drop (rest.length - 36)) <;> simp
        exact ⟨fun _ => Or.inr (Or.inr hu2f), fun _ => rfl⟩
    · rw [if_neg hu1]
      have hu1f : isUUIDChars ((rest.take (rest.length - 37)).drop
          ((rest.take (rest.length - 37)).length - 36)) = false := by
        revert hu1
        cases isUUIDChars ((rest.take (rest.length - 37)).drop
          ((rest.take (rest.length - 37)).length - 36)) <;> simp
      exact ⟨fun _ => Or.inr (Or.inl hu1f), fun _ => rfl⟩

lemma trimDomain_append (dom rest : List Char) :
    trimDomain dom (dom ++ rest) = rest := by
  unfold trimDomain
  rw [if_pos (List.take_left dom rest)]
  rw [List.drop_left dom rest]

lemma filter_map_of_preserve {α β : Type} (f : α → α) (p : α → Bool)
    (g : α → β) (hp : ∀ x, p (f x) = p x) (hg : ∀ x, g (f x) = g x)
    (l : List α) :
    ((l.map f).filter p).map g = (l.filter p).map g := by
  induction l with
  | nil => rfl
  | cons a t ih =>
    simp only [List.map_cons, List.filter_cons, hp]
    by_cases h : p a = true
    · simp [h, hg, ih]
    · have hf : p a = false := by
        revert h
        cases p a <;> simp
      simp [hf, ih]

lemma upsertBy_length {α : Type} (key : α → Bool) (upd : α → α) (mk : α)
    (l : List α) (hany : l.any key = true) :
    (upsertBy key upd mk l).length = l.length := by
  unfold upsertBy
  rw [if_pos hany, List.length_map]

lemma upsertBy_countP_le_one {α : Type} (key : α → Bool) (upd : α → α)
    (mk : α) (q : α → Bool) (hq : ∀ x, q (upd x) = q x)
    (hmk : q mk = true → ∀ x, key x = q x)
    (l : List α) (h1 : l.countP q ≤ 1) :
    (upsertBy key upd mk l).countP q ≤ 1 := by
  unfold upsertBy
  by_cases hany : l.any key = true
  · rw [if_pos hany, List.countP_map]
    have heq : l.countP (q ∘ fun x => if key x then upd x else x) =
        l.countP q := by
      refine List.countP_congr (fun a _ => ?_)
      by_cases hk : key a = true
      · simp [hk, hq]
      · have hkf : key a = false := by
          revert hk
          cases key a <;> simp
        simp [hkf]
    rw [heq]
    exact h1
  · rw [if_neg hany, List.countP_append]
    have hanyf : l.any key = false := by
      revert hany
      cases l.any key <;> simp
    by_cases hmkq : q mk = true
    · have hzero : l.countP q = 0 := by
        rw [List.countP_eq_zero]
        intro x hx
        have hnk := List.any_eq_false.mp hanyf x hx
        rw [hmk hmkq x] at hnk
        exact hnk
      simp [hzero, List.countP_cons, List.countP_nil, hmkq]
    · have hmkf : q mk = false := by
        revert hmkq
        cases q mk <;> simp
      simp only [List.countP_cons, List.countP_nil, hmkf, Bool.false_eq_true,
        if_false, Nat.add_zero, Nat.zero_add]
      exact h1

lemma sessionsGet_set (st : SessionStore) (chatId : Int) (s : Session)
    (now : Nat) :
    sessionsGet (sessionsSet st chatId s now) chatId now = some s := by
  unfold sessionsGet sessionsSet
  rw [List.find?_cons_of_pos _ (by simp)]
  simp only []
  rw [if_pos (by unfold sessionTTL; omega : now < now + sessionTTL)]

end Lemmas

/-- C1: once quorum is reached (and every risk is already COMPLETE), a
successful run of TryCompleteEpicScoring persists exactly one final-score
write, the epic ends up SCORED with a final score, and invoking the check
again observes the SCORED status and is a no-op: it returns the same store
and an empty write trace. -/
theorem epic_completion_idempotent
    (db : DB) (epicId : Nat) (epic : EpicRow) (db1 : DB) (w1 : List Write)
    (hfind : getEpicByID db epicId = some epic)
    (hstat : epic.status ≠ Status.scored)
    (hq : countTeamMembers db epic.teamId ≤ countEpicScores db epicId)
    (husers : ∀ r0 ∈ getDistinctRoleIDs db epicId,
      ∀ s ∈ getEpicScoresByEpicIDAndRoleID db epicId r0,
        (getUserByID db s.userId).isSome)
    (hrisks : ∀ r ∈ getRisksByEpicID db epicId, r.status = Status.scored)
    (h1 : tryCompleteEpicScoring db epicId = some (db1, w1)) :
    w1.countP Write.isFinal = 1 ∧
    (∃ e1, getEpicByID db1 epicId = some e1 ∧ e1.status = Status.scored ∧
      e1.finalScore.isSome) ∧
    tryCompleteEpicScoring db1 epicId = some (db1, []) := by
  obtain ⟨dbr, ws, hrl, hu, hut, he, hr, hes, hrs, hws⟩ :=
    roleLoop_spec epicId (getDistinctRoleIDs db epicId) db 0 husers
  have hall : (getRisksByEpicID dbr epicId).all
      (fun r => r.status == Status.scored) = true := by
    rw [getRisksByEpicID_congr dbr db hr, List.all_eq_true]
    intro r hrm
    exact beq_iff_eq.mpr (hrisks r hrm)
  have hnq : ¬ (countEpicScores db epicId < countTeamMembers db epic.teamId) :=
    Nat.not_lt.mpr hq
  simp only [tryCompleteEpicScoring, hfind, if_neg hstat, if_neg hnq, hrl,
    hall, if_true, Option.some.injEq, Prod.mk.injEq] at h1
  obtain ⟨hdb1, hw1⟩ := h1
  subst hdb1
  subst hw1
  have hcount0 : ws.countP Write.isFinal = 0 := by
    rw [List.countP_eq_zero]
    intro w hw
    obtain ⟨r0, a, rfl⟩ := hws w hw
    simp [Write.isFinal]
  have hfindr : getEpicByID dbr epicId = some epic := by
    rw [getEpicByID_congr dbr db he, hfind]
  set fs : ℚ := ((roundHalfAway (applyCoefficients
      (0 + ((getDistinctRoleIDs db epicId).map
        (fun r0 => roleAvgOn db epicId r0)).sum)
      (getRisksByEpicID dbr epicId)) : ℤ) : ℚ) with hfs
  have hfind1 := getEpicByID_setEpicFinalScore dbr epicId fs epic hfindr
  refine ⟨?_, ⟨_, hfind1, rfl, rfl⟩, ?_⟩
  · rw [List.countP_append, hcount0]
    simp [List.countP_cons, Write.isFinal]
  · exact tryCompleteEpicScoring_of_scored _ epicId _ hfind1 rfl

/-- C1 witness: the one-member store `c1db` satisfies every hypothesis and
the conclusion at its concrete completion result. -/
theorem epic_completion_idempotent_witness :
    ([Write.upsertRole 1 5 10, Write.setFinal 1 10].countP Write.isFinal = 1) ∧
    (∃ e1, getEpicByID c1dbAfter 1 = some e1 ∧ e1.status = Status.scored ∧
      e1.finalScore.isSome) ∧
    tryCompleteEpicScoring c1dbAfter 1 = some (c1dbAfter, []) :=
  epic_completion_idempotent c1db 1 ⟨1, 7, Status.scoring, none⟩ c1dbAfter
    [Write.upsertRole 1 5 10, Write.setFinal 1 10]
    (by decide) (by decide) (by decide) (by decide) (by decide) (by decide)

/-- C2 counterexample: on `c2db` the epic has effort quorum and a pending
risk; the completion check returns without error, but it is not free of
side effects — it upserts the per-role weighted average, changing the
stored state. -/
theorem epic_pending_risk_writes_counterexample :
    tryCompleteEpicScoring c2db 1 =
      some (c2dbAfter, [Write.upsertRole 1 5 10]) ∧
    c2dbAfter ≠ c2db := by
  constructor
  · decide
  · decide

/-- C2 (amended): with effort quorum reached but some risk not yet SCORED,
the completion check returns without error, performs no final-score write
and no status change — epics, risks, users, memberships and assessments
are untouched — but it does upsert the per-role weighted averages into
epic_role_scores before observing the pending risk. -/
theorem epic_pending_risk_no_completion
    (db : DB) (epicId : Nat) (epic : EpicRow)
    (hfind : getEpicByID db epicId = some epic)
    (hstat : epic.status ≠ Status.scored)
    (hq : countTeamMembers db epic.teamId ≤ countEpicScores db epicId)
    (husers : ∀ r0 ∈ getDistinctRoleIDs db epicId,
      ∀ s ∈ getEpicScoresByEpicIDAndRoleID db epicId r0,
        (getUserByID db s.userId).isSome)
    (hpend : ∃ r, r ∈ getRisksByEpicID db epicId ∧ r.status ≠ Status.scored) :
    ∃ db1 w1, tryCompleteEpicScoring db epicId = some (db1, w1) ∧
      db1.epics = db.epics ∧ db1.risks = db.risks ∧
      db1.users = db.users ∧ db1.userTeams = db.userTeams ∧
      db1.epicScores = db.epicScores ∧ db1.riskScores = db.riskScores ∧
      ∀ w ∈ w1, ∃ r0 a, w = Write.upsertRole epicId r0 a := by
  obtain ⟨dbr, ws, hrl, hu, hut, he, hr, hes, hrs, hws⟩ :=
    roleLoop_spec epicId (getDistinctRoleIDs db epicId) db 0 husers
  have hall : ¬ ((getRisksByEpicID dbr epicId).all
      (fun r => r.status == Status.scored) = true) := by
    rw [getRisksByEpicID_congr dbr db hr, List.all_eq_true]
    intro hcontra
    obtain ⟨r, hrm, hrs0⟩ := hpend
    exact hrs0 (beq_iff_eq.mp (hcontra r hrm))
  have hnq : ¬ (countEpicScores db epicId < countTeamMembers db epic.teamId) :=
    Nat.not_lt.mpr hq
  refine ⟨dbr, ws, ?_, he, hr, hu, hut, hes, hrs, hws⟩
  simp only [tryCompleteEpicScoring, hfind, if_neg hstat, if_neg hnq, hrl,
    if_neg hall]

/-- C2 (amended) witness: the amended statement at the concrete store
`c2db`. -/
theorem epic_pending_risk_no_completion_witness :
    ∃ db1 w1, tryCompleteEpicScoring c2db 1 = some (db1, w1) ∧
      db1.epics = c2db.epics ∧ db1.risks = c2db.risks ∧
      db1.users = c2db.users ∧ db1.userTeams = c2db.userTeams ∧
      db1.epicScores = c2db.epicScores ∧ db1.riskScores = c2db.riskScores ∧
      ∀ w ∈ w1, ∃ r0 a, w = Write.upsertRole 1 r0 a :=
  epic_pending_risk_no_completion c2db 1 ⟨1, 7, Status.scoring, none⟩
    (by decide) (by decide) (by decide) (by decide)
    ⟨⟨2, 1, Status.scoring, none⟩, by decide, by decide⟩

/-- C3 counterexample: risk 2 of `c3db` is already SCORED with persisted
weighted score 9, and the whole team has scored it; re-invoking
TryCompleteRiskScoring does not exit on the status — it recomputes the
weighted score (16) and overwrites the persisted value. -/
theorem risk_rescore_overwrite_counterexample :
    tryCompleteRiskScoring c3db 2 =
      some (c3dbAfter, [Write.setRiskScore 2 16]) ∧
    c3dbAfter ≠ c3db := by
  constructor
  · decide
  · decide

/-- C3 (amended): completion application is guarded by a status check for
the Work Item path only — the epic completion check on an already-SCORED
epic is a no-op — while the risk completion check has no status guard:
re-invoked on an already-SCORED risk whose quorum is met, it recomputes the
weighted score and persists it again (the status stays SCORED). -/
theorem risk_completion_unguarded
    (db : DB) (riskId : Nat) (risk : RiskRow) (epic : EpicRow) (ws : ℚ)
    (hrfind : getRiskByID db riskId = some risk)
    (_hrstat : risk.status = Status.scored)
    (hefind : getEpicByID db risk.epicId = some epic)
    (hestat : epic.status = Status.scored)
    (hq : countTeamMembers db epic.teamId ≤ countRiskScores db riskId)
    (hcalc : calculateRiskWeightedScore db riskId = some ws) :
    tryCompleteRiskScoring db riskId =
      some (setRiskWeightedScore db riskId ws,
        [Write.setRiskScore riskId ws]) ∧
    getRiskByID (setRiskWeightedScore db riskId ws) riskId =
      some { risk with weightedScore := some ws, status := Status.scored } ∧
    (∀ (db0 : DB) (e0 : Nat) (epic0 : EpicRow),
      getEpicByID db0 e0 = some epic0 → epic0.status = Status.scored →
      tryCompleteEpicScoring db0 e0 = some (db0, [])) := by
  have hnq : ¬ (countRiskScores db riskId < countTeamMembers db epic.teamId) :=
    Nat.not_lt.mpr hq
  have hefind1 : getEpicByID (setRiskWeightedScore db riskId ws) risk.epicId =
      some epic := by
    rw [getEpicByID_congr (setRiskWeightedScore db riskId ws) db rfl, hefind]
  have hcascade := tryCompleteEpicScoring_of_scored
    (setRiskWeightedScore db riskId ws) risk.epicId epic hefind1 hestat
  refine ⟨?_, getRiskByID_setRiskWeightedScore db riskId ws risk hrfind, ?_⟩
  · simp only [tryCompleteRiskScoring, hrfind, hefind, if_neg hnq, hcalc,
      hcascade]
  · intro db0 e0 epic0 h0 hs0
    exact tryCompleteEpicScoring_of_scored db0 e0 epic0 h0 hs0

/-- C3 (amended) witness: the amended statement at the concrete store
`c3db`, whose SCORED risk 2 gets its weighted score recomputed to 16. -/
theorem risk_completion_unguarded_witness :
    (tryCompleteRiskScoring c3db 2 =
      some (setRiskWeightedScore c3db 2 16, [Write.setRiskScore 2 16])) ∧
    getRiskByID (setRiskWeightedScore c3db 2 16) 2 =
      some ⟨2, 1, Status.scored, some 16⟩ ∧
    (∀ (db0 : DB) (e0 : Nat) (epic0 : EpicRow),
      getEpicByID db0 e0 = some epic0 → epic0.status = Status.scored →
      tryCompleteEpicScoring db0 e0 = some (db0, [])) :=
  risk_completion_unguarded c3db 2 ⟨2, 1, Status.scored, some 9⟩
    ⟨1, 7, Status.scored, some 19⟩ 16
    (by decide) (by decide) (by decide) (by decide) (by decide) (by decide)

/-- C4: when effort quorum is reached and every risk of the epic is SCORED
with a weighted score, the persisted final score is the rounding of
(sum over the roles having at least one assessment of the role's weighted
average) × (product of the coefficients of all the epic's risks),
coefficients compounding multiplicatively. -/
theorem epic_final_score_formula
    (db : DB) (epicId : Nat) (epic : EpicRow)
    (hfind : getEpicByID db epicId = some epic)
    (hstat : epic.status ≠ Status.scored)
    (hq : countTeamMembers db epic.teamId ≤ countEpicScores db epicId)
    (husers : ∀ r0 ∈ getDistinctRoleIDs db epicId,
      ∀ s ∈ getEpicScoresByEpicIDAndRoleID db epicId r0,
        (getUserByID db s.userId).isSome)
    (hrisks : ∀ r ∈ getRisksByEpicID db epicId,
      r.status = Status.scored ∧ r.weightedScore.isSome) :
    ∃ db1 w1, tryCompleteEpicScoring db epicId = some (db1, w1) ∧
      ∃ e1, getEpicByID db1 epicId = some e1 ∧
        e1.status = Status.scored ∧
        e1.finalScore = some ((roundHalfAway
          ((((getDistinctRoleIDs db epicId).map
              (fun r0 => roleAvgOn db epicId r0)).sum) *
           (((getRisksByEpicID db epicId).map coeffOf).prod)) : ℤ) : ℚ) := by
  obtain ⟨dbr, ws, hrl, hu, hut, he, hr, hes, hrs, hws⟩ :=
    roleLoop_spec epicId (getDistinctRoleIDs db epicId) db 0 husers
  have hrisksEq : getRisksByEpicID dbr epicId = getRisksByEpicID db epicId := by
    rw [getRisksByEpicID_congr dbr db hr]
  have hall : (getRisksByEpicID dbr epicId).all
      (fun r => r.status == Status.scored) = true := by
    rw [hrisksEq, List.all_eq_true]
    intro r hrm
    exact beq_iff_eq.mpr (hrisks r hrm).1
  have hnq : ¬ (countEpicScores db epicId < countTeamMembers db epic.teamId) :=
    Nat.not_lt.mpr hq
  have happ : applyCoefficients
      (0 + ((getDistinctRoleIDs db epicId).map
        (fun r0 => roleAvgOn db epicId r0)).sum)
      (getRisksByEpicID dbr epicId) =
      (((getDistinctRoleIDs db epicId).map
        (fun r0 => roleAvgOn db epicId r0)).sum) *
      (((getRisksByEpicID db epicId).map coeffOf).prod) := by
    rw [hrisksEq, applyCoefficients_spec _ _ (fun r hrm => (hrisks r hrm).2),
      zero_add]
  have hfindr : getEpicByID dbr epicId = some epic := by
    rw [getEpicByID_congr dbr db he, hfind]
  have hres : tryCompleteEpicScoring db epicId =
      some (setEpicFinalScore dbr epicId
        ((roundHalfAway (applyCoefficients
          (0 + ((getDistinctRoleIDs db epicId).map
            (fun r0 => roleAvgOn db epicId r0)).sum)
          (getRisksByEpicID dbr epicId)) : ℤ) : ℚ),
        ws ++ [Write.setFinal epicId
          ((roundHalfAway (applyCoefficients
            (0 + ((getDistinctRoleIDs db epicId).map
              (fun r0 => roleAvgOn db epicId r0)).sum)
            (getRisksByEpicID dbr epicId)) : ℤ) : ℚ)]) := by
    simp only [tryCompleteEpicScoring, hfind, if_neg hstat, if_neg hnq, hrl,
      hall, if_true]
  rw [happ] at hres
  exact ⟨_, _, hres,
    _, getEpicByID_setEpicFinalScore dbr epicId _ epic hfindr, rfl, rfl⟩

/-- C4 witness: on `c4db` (team size 3, role averages 10 and 5, completed
risks with weighted scores 3 and 10) the persisted final score is the
formula's value, and that value is 19 = round(15 × 1.05 × 1.20). -/
theorem epic_final_score_formula_witness :
    (∃ db1 w1, tryCompleteEpicScoring c4db 1 = some (db1, w1) ∧
      ∃ e1, getEpicByID db1 1 = some e1 ∧
        e1.status = Status.scored ∧
        e1.finalScore = some ((roundHalfAway
          ((((getDistinctRoleIDs c4db 1).map
              (fun r0 => roleAvgOn c4db 1 r0)).sum) *
           (((getRisksByEpicID c4db 1).map coeffOf).prod)) : ℤ) : ℚ)) ∧
    ((roundHalfAway ((((getDistinctRoleIDs c4db 1).map
        (fun r0 => roleAvgOn c4db 1 r0)).sum) *
      (((getRisksByEpicID c4db 1).map coeffOf).prod)) : ℤ) : ℚ) = 19 :=
  ⟨epic_final_score_formula c4db 1 ⟨1, 7, Status.scoring, none⟩
    (by decide) (by decide) (by decide) (by decide) (by decide),
   by decide⟩

/-- C5: both weighted averages equal Σ(value·weight)/Σ(weight) over the
relevant assessments — value being the submitted score for an epic role
and probability × impact for a risk — and equal 0 when there are no
assessments or the total weight is 0. -/
theorem weighted_average_formula
    (db : DB) (e r rk : Nat)
    (h1 : ∀ s ∈ getEpicScoresByEpicIDAndRoleID db e r,
      (getUserByID db s.userId).isSome)
    (h2 : ∀ s ∈ getRiskScoresByRiskID db rk,
      (getUserByID db s.userId).isSome) :
    (calculateEpicRoleAvg db e r =
      some (((getEpicScoresByEpicIDAndRoleID db e r).map
              (fun s => epicScoreValue s * weightOf db s.userId)).sum /
            ((getEpicScoresByEpicIDAndRoleID db e r).map
              (fun s => weightOf db s.userId)).sum)) ∧
    (getEpicScoresByEpicIDAndRoleID db e r = [] →
      calculateEpicRoleAvg db e r = some 0) ∧
    (((getEpicScoresByEpicIDAndRoleID db e r).map
        (fun s => weightOf db s.userId)).sum = 0 →
      calculateEpicRoleAvg db e r = some 0) ∧
    (calculateRiskWeightedScore db rk =
      some (((getRiskScoresByRiskID db rk).map
              (fun s => riskScoreValue s * weightOf db s.userId)).sum /
            ((getRiskScoresByRiskID db rk).map
              (fun s => weightOf db s.userId)).sum)) ∧
    (getRiskScoresByRiskID db rk = [] →
      calculateRiskWeightedScore db rk = some 0) ∧
    (((getRiskScoresByRiskID db rk).map
        (fun s => weightOf db s.userId)).sum = 0 →
      calculateRiskWeightedScore db rk = some 0) := by
  refine ⟨calculateEpicRoleAvg_spec db e r h1, ?_, ?_,
    calculateRiskWeightedScore_spec db rk h2, ?_, ?_⟩
  · intro hemp
    rw [calculateEpicRoleAvg_spec db e r h1, hemp]
    simp
  · intro hw
    rw [calculateEpicRoleAvg_spec db e r h1, hw, div_zero]
  · intro hemp
    rw [calculateRiskWeightedScore_spec db rk h2, hemp]
    simp
  · intro hw
    rw [calculateRiskWeightedScore_spec db rk h2, hw, div_zero]

/-- C5 witness: on `c5db`, role 101 of epic 1 averages
(10·100 + 4·50)/150 = 8, risk 2 averages (6·100 + 4·50)/150 = 16/3, and
the formula instances evaluate accordingly. -/
theorem weighted_average_formula_witness :
    (calculateEpicRoleAvg c5db 1 101 =
      some (((getEpicScoresByEpicIDAndRoleID c5db 1 101).map
              (fun s => epicScoreValue s * weightOf c5db s.userId)).sum /
            ((getEpicScoresByEpicIDAndRoleID c5db 1 101).map
              (fun s => weightOf c5db s.userId)).sum)) ∧
    (getEpicScoresByEpicIDAndRoleID c5db 1 101 = [] →
      calculateEpicRoleAvg c5db 1 101 = some 0) ∧
    (((getEpicScoresByEpicIDAndRoleID c5db 1 101).map
        (fun s => weightOf c5db s.userId)).sum = 0 →
      calculateEpicRoleAvg c5db 1 101 = some 0) ∧
    (calculateRiskWeightedScore c5db 2 =
      some (((getRiskScoresByRiskID c5db 2).map
              (fun s => riskScoreValue s * weightOf c5db s.userId)).sum /
            ((getRiskScoresByRiskID c5db 2).map
              (fun s => weightOf c5db s.userId)).sum)) ∧
    (getRiskScoresByRiskID c5db 2 = [] →
      calculateRiskWeightedScore c5db 2 = some 0) ∧
    (((getRiskScoresByRiskID c5db 2).map
        (fun s => weightOf c5db s.userId)).sum = 0 →
      calculateRiskWeightedScore c5db 2 = some 0) :=
  weighted_average_formula c5db 1 101 2 (by decide) (by decide)

/-- C6: RiskCoefficient is a pure step function of the weighted score
rounded to the nearest integer with halves away from zero — scores with
the same rounding get the same coefficient — and on the claimed inputs:
4 → 1.05, 5 → 1.10, 8.6 (rounds to 9) → 1.20, 13 → 1.30, 20 → 1.30, with
the half 4.5 rounding up to 5 → 1.10. -/
theorem risk_coefficient_step :
    (∀ a b : ℚ, roundHalfAway a = roundHalfAway b →
      riskCoefficient a = riskCoefficient b) ∧
    riskCoefficient 4 = 21 / 20 ∧
    riskCoefficient 5 = 11 / 10 ∧
    riskCoefficient (43 / 5) = 6 / 5 ∧
    roundHalfAway (43 / 5) = 9 ∧
    riskCoefficient 13 = 13 / 10 ∧
    riskCoefficient 20 = 13 / 10 ∧
    riskCoefficient (9 / 2) = 11 / 10 := by
  refine ⟨?_, by decide, by decide, by decide, by decide, by decide,
    by decide, by decide⟩
  intro a b h
  unfold riskCoefficient
  rw [h]

/-- C6 witness: the congruence part of the step-function theorem applied
at 8.6 and 9, which round to the same integer. -/
theorem risk_coefficient_step_witness :
    roundHalfAway (43 / 5) = roundHalfAway 9 ∧
    riskCoefficient (43 / 5) = riskCoefficient 9 :=
  ⟨by decide, risk_coefficient_step.1 (43 / 5) 9 (by decide)⟩

/-- C10: the free-text session path accepts exactly the integers 0..500,
the button-token path accepts exactly the integers ≥ 1; they disagree at 0
(session accepts, button rejects) and at every value above 500 (session
rejects, button accepts). -/
theorem effort_input_paths_disagree :
    (∀ n : Int, sessionEffortAccepts n = true ↔ (0 ≤ n ∧ n ≤ 500)) ∧
    (∀ n : Int, buttonEffortAccepts n = true ↔ 1 ≤ n) ∧
    sessionEffortAccepts 0 = true ∧ buttonEffortAccepts 0 = false ∧
    (∀ n : Int, 500 < n →
      sessionEffortAccepts n = false ∧ buttonEffortAccepts n = true) := by
  refine ⟨?_, ?_, by decide, by decide, ?_⟩
  · intro n
    simp only [sessionEffortAccepts, Bool.not_eq_true', Bool.or_eq_false_iff,
      decide_eq_false_iff_not, not_lt]
  · intro n
    simp only [buttonEffortAccepts, Bool.not_eq_true',
      decide_eq_false_iff_not, not_lt]
  · intro n hn
    constructor
    · unfold sessionEffortAccepts
      rw [decide_eq_true hn, Bool.or_true, Bool.not_true]
    · unfold buttonEffortAccepts
      rw [decide_eq_false (by omega : ¬ (n < 1)), Bool.not_false]

/-- C10 witness: the disagreement at the concrete input 501. -/
theorem effort_input_paths_disagree_witness :
    sessionEffortAccepts 501 = false ∧ buttonEffortAccepts 501 = true :=
  effort_input_paths_disagree.2.2.2.2 501 (by decide)

/-- C7 counterexample: the claim puts the two-identifier malformed
threshold at 75, but the decoder's guard is `len < 74`: this 74-character
remainder (separator, UUID, separator, UUID — an empty action) is not
rejected as malformed; it decodes with an empty action. -/
theorem token_twoid_threshold_counterexample :
    shortTwoIdRest.length < 75 ∧
    decodeTwoId shortTwoIdRest = some ([], sampleUUID, sampleUUID) := by
  constructor
  · decide
  · decide

/-- C7 (amended): decoding strips the domain prefix and peels fixed-width
identifiers from the right, so that encoding any (domain, nonempty action
possibly containing underscores, UUID[, UUID]) and decoding yields back
the identical action and identifiers; decoding reports a malformed-token
error exactly when the remainder is shorter than 38 characters (one-id) or
74 characters (two-id — the separator+id+separator+id width, which admits
an empty action), or when an extracted 36-character substring does not
parse as a UUID. -/
theorem token_codec_roundtrip
    (dom act idOne idTwo : List Char)
    (ha : act ≠ []) (h1 : isUUIDChars idOne = true)
    (h2 : isUUIDChars idTwo = true) :
    trimDomain dom (dom ++ encodeOneId act idOne) = encodeOneId act idOne ∧
    decodeOneId (encodeOneId act idOne) = some (act, idOne) ∧
    decodeTwoId (encodeTwoId act idOne idTwo) = some (act, idOne, idTwo) ∧
    (∀ rest : List Char, decodeOneId rest = none ↔ rest.length < 38 ∨
      isUUIDChars (rest.drop (rest.length - 36)) = false) ∧
    (∀ rest : List Char, decodeTwoId rest = none ↔ rest.length < 74 ∨
      isUUIDChars ((rest.take (rest.length - 37)).drop
        ((rest.take (rest.length - 37)).length - 36)) = false ∨
      isUUIDChars (rest.drop (rest.length - 36)) = false) :=
  ⟨trimDomain_append dom _, decodeOneId_encode act idOne ha h1,
   decodeTwoId_encode act idOne idTwo ha h1 h2,
   decodeOneId_eq_none_iff, decodeTwoId_eq_none_iff⟩

/-- C7 (amended) witness: the spec's own round-trip example — action
deleteepic with the sample UUID — through the one-id and two-id codecs. -/
theorem token_codec_roundtrip_witness :
    trimDomain ("epic_".toList)
      ("epic_".toList ++ encodeOneId ("deleteepic".toList) sampleUUID) =
      encodeOneId ("deleteepic".toList) sampleUUID ∧
    decodeOneId (encodeOneId ("deleteepic".toList) sampleUUID) =
      some ("deleteepic".toList, sampleUUID) ∧
    decodeTwoId (encodeTwoId ("deleteepic".toList) sampleUUID sampleUUID) =
      some ("deleteepic".toList, sampleUUID, sampleUUID) :=
  ⟨(token_codec_roundtrip ("epic_".toList) ("deleteepic".toList) sampleUUID
      sampleUUID (by decide) (by decide) (by decide)).1,
   (token_codec_roundtrip ("epic_".toList) ("deleteepic".toList) sampleUUID
      sampleUUID (by decide) (by decide) (by decide)).2.1,
   (token_codec_roundtrip ("epic_".toList) ("deleteepic".toList) sampleUUID
      sampleUUID (by decide) (by decide) (by decide)).2.2.1⟩

/-- C8: re-submitting an assessment for an existing (epic, participant) —
or (risk, participant) — pair updates the row in place: the table keeps
its size, the distinct-submitter count does not change, and the
at-most-one-row-per-pair invariant is preserved by every upsert (also on
first submission). -/
theorem assessment_upsert_no_duplicates
    (db : DB) (e u roleId : Nat) (sc : Int) (rk u2 : Nat) (p i : Int)
    (hE : db.epicScores.any (fun s => s.epicId == e && s.userId == u) = true)
    (hR : db.riskScores.any (fun s => s.riskId == rk && s.userId == u2) = true) :
    (createEpicScore db e u roleId sc).epicScores.length =
      db.epicScores.length ∧
    distinctEpicSubmitters (createEpicScore db e u roleId sc) e =
      distinctEpicSubmitters db e ∧
    (∀ (db0 : DB), (∀ e1 u1, epicPairCount db0.epicScores e1 u1 ≤ 1) →
      ∀ e1 u1,
        epicPairCount (createEpicScore db0 e u roleId sc).epicScores e1 u1 ≤ 1) ∧
    (createRiskScore db rk u2 p i).riskScores.length =
      db.riskScores.length ∧
    distinctRiskSubmitters (createRiskScore db rk u2 p i) rk =
      distinctRiskSubmitters db rk ∧
    (∀ (db0 : DB), (∀ r1 u1, riskPairCount db0.riskScores r1 u1 ≤ 1) →
      ∀ r1 u1,
        riskPairCount (createRiskScore db0 rk u2 p i).riskScores r1 u1 ≤ 1) := by
  refine ⟨?_, ?_, ?_, ?_, ?_, ?_⟩
  · exact upsertBy_length _ _ _ _ hE
  · unfold distinctEpicSubmitters createEpicScore upsertBy
    rw [if_pos hE]
    rw [filter_map_of_preserve _ _ _
      (fun x => by by_cases hk : (x.epicId == e && x.userId == u) = true <;>
        simp [hk])
      (fun x => by by_cases hk : (x.epicId == e && x.userId == u) = true <;>
        simp [hk])]
  · intro db0 hinv e1 u1
    refine upsertBy_countP_le_one
      (fun s : EpicScoreRow => s.epicId == e && s.userId == u)
      (fun s => { s with score := sc, roleId := roleId })
      ⟨e, u, roleId, sc⟩
      (fun s => s.epicId == e1 && s.userId == u1)
      (fun x => rfl) ?_ db0.epicScores (hinv e1 u1)
    intro hmk x
    rw [Bool.and_eq_true] at hmk
    have he1 : e = e1 := by simpa using hmk.1
    have hu1 : u = u1 := by simpa using hmk.2
    rw [he1, hu1]
  · exact upsertBy_length _ _ _ _ hR
  · unfold distinctRiskSubmitters createRiskScore upsertBy
    rw [if_pos hR]
    rw [filter_map_of_preserve _ _ _
      (fun x => by by_cases hk : (x.riskId == rk && x.userId == u2) = true <;>
        simp [hk])
      (fun x => by by_cases hk : (x.riskId == rk && x.userId == u2) = true <;>
        simp [hk])]
  · intro db0 hinv r1 u1
    refine upsertBy_countP_le_one
      (fun s : RiskScoreRow => s.riskId == rk && s.userId == u2)
      (fun s => { s with probability := p, impact := i })
      ⟨rk, u2, p, i⟩
      (fun s => s.riskId == r1 && s.userId == u1)
      (fun x => rfl) ?_ db0.riskScores (hinv r1 u1)
    intro hmk x
    rw [Bool.and_eq_true] at hmk
    have he1 : rk = r1 := by simpa using hmk.1
    have hu1 : u2 = u1 := by simpa using hmk.2
    rw [he1, hu1]

/-- C8 witness: re-submitting on `c8db`, whose epic 1 / user 1 and risk 2 /
user 1 assessments already exist. -/
theorem assessment_upsert_no_duplicates_witness :
    (createEpicScore c8db 1 1 5 7).epicScores.length =
      c8db.epicScores.length ∧
    distinctEpicSubmitters (createEpicScore c8db 1 1 5 7) 1 =
      distinctEpicSubmitters c8db 1 ∧
    (createRiskScore c8db 2 1 3 4).riskScores.length =
      c8db.riskScores.length ∧
    distinctRiskSubmitters (createRiskScore c8db 2 1 3 4) 2 =
      distinctRiskSubmitters c8db 2 :=
  ⟨(assessment_upsert_no_duplicates c8db 1 1 5 7 2 1 3 4
      (by decide) (by decide)).1,
   (assessment_upsert_no_duplicates c8db 1 1 5 7 2 1 3 4
      (by decide) (by decide)).2.1,
   (assessment_upsert_no_duplicates c8db 1 1 5 7 2 1 3 4
      (by decide) (by decide)).2.2.2.1,
   (assessment_upsert_no_duplicates c8db 1 1 5 7 2 1 3 4
      (by decide) (by decide)).2.2.2.2.1⟩

/-- C9: the command dispatcher clears the conversation's pending session
before dispatching any top-level command, so at dispatch time a get
returns not-found; afterwards a get returns not-found for every command
except the interactive adduser branch, which stores a fresh
StepAddUserUsername session with an empty scratch map (never the old
session's state). -/
theorem command_clears_pending_session
    (st : SessionStore) (chatId threadId : Int) (cmd : Cmd)
    (interactiveAddUser : Bool) (now : Nat) (old : Session)
    (_hpending : sessionsGet st chatId now = some old) :
    sessionsGet (sessionsClear st chatId) chatId now = none ∧
    commandHandlerSessions st chatId threadId cmd interactiveAddUser now =
      dispatchSessionEffect cmd interactiveAddUser chatId threadId now
        (sessionsClear st chatId) ∧
    (¬ (cmd = Cmd.adduser ∧ interactiveAddUser = true) →
      sessionsGet (commandHandlerSessions st chatId threadId cmd
        interactiveAddUser now) chatId now = none) ∧
    (cmd = Cmd.adduser → interactiveAddUser = true →
      sessionsGet (commandHandlerSessions st chatId threadId cmd
        interactiveAddUser now) chatId now =
        some ⟨Step.addUserUsername, threadId, []⟩) := by
  have hclear : sessionsGet (sessionsClear st chatId) chatId now = none := by
    unfold sessionsGet sessionsClear
    rw [find?_filter_not (fun x => x.1 == chatId) st.entries]
  refine ⟨hclear, rfl, ?_, ?_⟩
  · intro hne
    cases cmd with
    | adduser =>
      have hiau : interactiveAddUser = false := by
        cases hb : interactiveAddUser
        · rfl
        · exact absurd ⟨rfl, hb⟩ hne
      subst hiau
      exact hclear
    | start => exact hclear
    | help => exact hclear
    | addteam => exact hclear
    | renameuser => exact hclear
    | assignrole => exact hclear
    | assignteam => exact hclear
    | addepic => exact hclear
    | addrisk => exact hclear
    | startscore => exact hclear
    | results => exact hclear
    | epicstatus => exact hclear
    | score => exact hclear
    | unassignrole => exact hclear
    | removefromteam => exact hclear
    | deleteepic => exact hclear
    | deleterisk => exact hclear
    | deleteuser => exact hclear
    | changerate => exact hclear
    | addadmin => exact hclear
    | removeadmin => exact hclear
    | list => exact hclear
    | unknown => exact hclear
  · intro hcmd hiau
    subst hcmd
    subst hiau
    exact sessionsGet_set (sessionsClear st chatId) chatId
      ⟨Step.addUserUsername, threadId, []⟩ now

/-- C9 witness: the pending session of conversation 42 in `c9store` is
discarded by a top-level score command. -/
theorem command_clears_pending_session_witness :
    sessionsGet (sessionsClear c9store 42) 42 50 = none ∧
    sessionsGet (commandHandlerSessions c9store 42 0 Cmd.score false 50)
      42 50 = none :=
  ⟨(command_clears_pending_session c9store 42 0 Cmd.score false 50
      ⟨Step.scoreEpicEffort, 0, []⟩ (by decide)).1,
   (command_clears_pending_session c9store 42 0 Cmd.score false 50
      ⟨Step.scoreEpicEffort, 0, []⟩ (by decide)).2.2.1 (by decide)⟩

end EpicScoreBot
